import Mathlib

set_option maxHeartbeats 1000000

/-!
Shallow embedding of `neuraxle/rest/flask.py` (the Neuraxio/NeuraAxle REST
adapter layer).  Dynamic Python values are modelled by `PyVal`, raised
exceptions by `Except PyErr`, and the side effect of issuing an outbound HTTP
call by an explicit list of logged requests returned next to the result.
-/

/-- Dynamic Python values as used by the adapter layer: JSON-style data, plus
numpy arrays (`ndarray`, holding their nested-list element content) and flask
response objects (`response`, holding their JSON payload). -/
inductive PyVal where
  | int : Int → PyVal
  | str : String → PyVal
  | pynone : PyVal
  | list : List PyVal → PyVal
  | dict : List (String × PyVal) → PyVal
  | ndarray : PyVal → PyVal
  | response : PyVal → PyVal

/-- Python exceptions that this layer can raise or propagate. -/
inductive PyErr where
  | notImplementedError : String → PyErr
  | attributeError : PyErr
  | typeError : PyErr
  | jsonDecodeError : PyErr
  | keyError : PyErr
  | urlError : PyErr
  deriving DecidableEq

/-! ### Decimal digits, as `json.dumps` prints integers -/

/-- Decimal digit character for a value below ten. -/
def digitChar (n : Nat) : Char := Char.ofNat (48 + n)

/-- Reversed decimal digits of a natural number. -/
def natCharsRev (n : Nat) : List Char :=
  if h : n < 10 then [digitChar n]
  else digitChar (n % 10) :: natCharsRev (n / 10)
termination_by n
decreasing_by exact Nat.div_lt_self (by omega) (by omega)

/-- Decimal digits of a natural number. -/
def natChars (n : Nat) : List Char := (natCharsRev n).reverse

/-- Decimal representation of an integer, as `repr` and `json.dumps` print it. -/
def intChars (n : Int) : List Char :=
  if n < 0 then '-' :: natChars n.natAbs else natChars n.natAbs

/-! ### Serialization: a model of Python `json.dumps` -/

/-- JSON string escaping of one character (quote and backslash). -/
def escapeChar (c : Char) : List Char :=
  if c = '"' then ['\\', '"'] else if c = '\\' then ['\\', '\\'] else [c]

/-- JSON string escaping of a character list. -/
def escapeStr (l : List Char) : List Char := (l.map escapeChar).flatten

mutual
/-- Serialization of a value as Python `json.dumps` prints it (default
separators).  `ndarray` and `response` are not JSON serializable; they are
mapped to the empty output and ruled out by `jsonable`. -/
def jdump : PyVal → List Char
  | PyVal.int n => intChars n
  | PyVal.str s => '"' :: (escapeStr s.data ++ ['"'])
  | PyVal.pynone => ['n', 'u', 'l', 'l']
  | PyVal.list xs => '[' :: (jdumpElems xs ++ [']'])
  | PyVal.dict ms => '\x7b' :: (jdumpMembers ms ++ ['\x7d'])
  | PyVal.ndarray _ => []
  | PyVal.response _ => []

/-- Array elements, separated by a comma and a space. -/
def jdumpElems : List PyVal → List Char
  | [] => []
  | [v] => jdump v
  | v :: vs => jdump v ++ ',' :: ' ' :: jdumpElems vs

/-- Object members, separated by a comma and a space. -/
def jdumpMembers : List (String × PyVal) → List Char
  | [] => []
  | [(k, v)] => '"' :: (escapeStr k.data ++ ['"', ':', ' ']) ++ jdump v
  | (k, v) :: ms =>
      ('"' :: (escapeStr k.data ++ ['"', ':', ' ']) ++ jdump v) ++ ',' :: ' ' :: jdumpMembers ms
end

/-- Printable ASCII characters: on strings made of these, the model serializer
output coincides with Python `json.dumps` (which otherwise emits extra
escapes). -/
def goodChar (c : Char) : Bool := decide (32 ≤ c.toNat) && decide (c.toNat < 127)

/-- The string only holds printable ASCII characters. -/
def goodStr (s : String) : Bool := s.data.all goodChar

mutual
/-- The value is JSON serializable (and within the printable-ASCII model
domain of `jdump`). -/
def jsonable : PyVal → Bool
  | PyVal.int _ => true
  | PyVal.str s => goodStr s
  | PyVal.pynone => true
  | PyVal.list xs => jsonableElems xs
  | PyVal.dict ms => jsonableMembers ms
  | PyVal.ndarray _ => false
  | PyVal.response _ => false

/-- All array elements are serializable. -/
def jsonableElems : List PyVal → Bool
  | [] => true
  | v :: vs => jsonable v && jsonableElems vs

/-- All object members have serializable keys and values. -/
def jsonableMembers : List (String × PyVal) → Bool
  | [] => true
  | (k, v) :: ms => goodStr k && jsonable v && jsonableMembers ms
end

/-- Model of Python `json.dumps(v).encode('utf8')`: total on printable-ASCII
JSON-style values (where the utf8 bytes coincide with the characters), raising
(`none`, a `TypeError` in Python) on values that are not JSON serializable. -/
def json_dumps (v : PyVal) : Option String :=
  if jsonable v then some (String.mk (jdump v)) else none

/-! ### Parsing: a model of Python `json.loads` -/

/-- JSON whitespace. -/
def isWsChar (c : Char) : Bool := c == ' ' || c == '\t' || c == '\n' || c == '\r'

/-- Drop leading JSON whitespace. -/
def skipWs : List Char → List Char
  | [] => []
  | c :: cs => if isWsChar c then skipWs cs else c :: cs

/-- Decimal digit test. -/
def isDigitC (c : Char) : Bool := decide (48 ≤ c.toNat) && decide (c.toNat ≤ 57)

/-- Value of a decimal digit character. -/
def digitVal (c : Char) : Nat := c.toNat - 48

/-- Value of a list of decimal digit characters. -/
def digitsVal (ds : List Char) : Nat := ds.foldl (fun a c => 10 * a + digitVal c) 0

/-- Longest leading run of decimal digits, as a number, with the remainder. -/
def pnat (cs : List Char) : Option (Nat × List Char) :=
  match cs.takeWhile isDigitC with
  | [] => none
  | ds => some (digitsVal ds, cs.dropWhile isDigitC)

/-- Unescaping of one escaped character inside a JSON string. -/
def unescChar (e : Char) : Char :=
  if e = 'n' then '\n'
  else if e = 't' then '\t'
  else if e = 'r' then '\r'
  else if e = 'b' then Char.ofNat 8
  else if e = 'f' then Char.ofNat 12
  else e

/-- Parse the remainder of a JSON string (after the opening quote), up to and
including the closing quote. -/
def pstringChars : List Char → Option (List Char × List Char)
  | [] => none
  | c :: rest =>
    if c = '"' then some ([], rest)
    else if c = '\\' then
      match rest with
      | [] => none
      | e :: rest2 => (pstringChars rest2).map (fun p => (unescChar e :: p.1, p.2))
    else (pstringChars rest).map (fun p => (c :: p.1, p.2))

mutual
/-- Recursive-descent JSON value parser (the core of the `json.loads` model),
with a fuel argument; returns the value and the unconsumed remainder. -/
def jparseV : Nat → List Char → Option (PyVal × List Char)
  | 0, _ => none
  | Nat.succ f, cs =>
    match skipWs cs with
    | [] => none
    | c :: rest =>
      if c = '"' then
        match pstringChars rest with
        | some (s, r) => some (PyVal.str (String.mk s), r)
        | none => none
      else if c = '[' then
        match skipWs rest with
        | ']' :: r => some (PyVal.list [], r)
        | cs2 =>
          match jparseElems f cs2 with
          | some (vs, r) => some (PyVal.list vs, r)
          | none => none
      else if c = '\x7b' then
        match skipWs rest with
        | '\x7d' :: r => some (PyVal.dict [], r)
        | cs2 =>
          match jparseMembers f cs2 with
          | some (ms, r) => some (PyVal.dict ms, r)
          | none => none
      else if c = 'n' then
        match rest with
        | 'u' :: 'l' :: 'l' :: r => some (PyVal.pynone, r)
        | _ => none
      else if c = '-' then
        match pnat rest with
        | some (m, r) => some (PyVal.int (-(m : Int)), r)
        | none => none
      else
        match pnat (c :: rest) with
        | some (m, r) => some (PyVal.int (m : Int), r)
        | none => none

/-- Parse one or more comma-separated array elements and the closing bracket. -/
def jparseElems : Nat → List Char → Option (List PyVal × List Char)
  | 0, _ => none
  | Nat.succ f, cs =>
    match jparseV f cs with
    | some (v, r) =>
      match skipWs r with
      | ',' :: r2 =>
        match jparseElems f r2 with
        | some (vs, r3) => some (v :: vs, r3)
        | none => none
      | ']' :: r2 => some ([v], r2)
      | _ => none
    | none => none

/-- Parse one or more comma-separated object members and the closing brace. -/
def jparseMembers : Nat → List Char → Option (List (String × PyVal) × List Char)
  | 0, _ => none
  | Nat.succ f, cs =>
    match skipWs cs with
    | '"' :: cs1 =>
      match pstringChars cs1 with
      | some (k, r) =>
        match skipWs r with
        | ':' :: r1 =>
          match jparseV f r1 with
          | some (v, r2) =>
            match skipWs r2 with
            | ',' :: r3 =>
              match jparseMembers f r3 with
              | some (ms, r4) => some ((String.mk k, v) :: ms, r4)
              | none => none
            | '\x7d' :: r3 => some ([(String.mk k, v)], r3)
            | _ => none
          | none => none
        | _ => none
      | none => none
    | _ => none
end

/-- Model of Python `json.loads` on an (ASCII, utf8) body: parse one JSON
value, allowing surrounding whitespace; leftover input is a parse error. -/
def json_loads (s : String) : Option PyVal :=
  match jparseV (s.data.length + 1) s.data with
  | some (v, r) =>
    match skipWs r with
    | [] => some v
    | _ => none
  | none => none

/-! ### Numpy model -/

mutual
/-- Model of `np.array(x).tolist()`: numpy arrays carry their nested-list
element content, so converting to a list strips array wrappers recursively.
Faithful for the non-ragged numeric, string and `None` values this layer
exchanges. -/
def np_tolist : PyVal → PyVal
  | PyVal.ndarray v => np_tolist v
  | PyVal.list xs => PyVal.list (np_tolistL xs)
  | PyVal.int n => PyVal.int n
  | PyVal.str s => PyVal.str s
  | PyVal.pynone => PyVal.pynone
  | PyVal.dict ms => PyVal.dict ms
  | PyVal.response v => PyVal.response v

/-- Elementwise `np_tolist`. -/
def np_tolistL : List PyVal → List PyVal
  | [] => []
  | v :: vs => np_tolist v :: np_tolistL vs
end

/-- Model of `np.array(x)`: an array whose element content is the fully
converted nested-list value of `x`. -/
def np_array (v : PyVal) : PyVal := PyVal.ndarray (np_tolist v)

/-- The value is a flat JSON array of integers (a 1-d numeric array). -/
def isIntList : PyVal → Bool
  | PyVal.list xs => xs.all (fun v => match v with | PyVal.int _ => true | _ => false)
  | _ => false

/-- The value is an integer scalar. -/
def isInt : PyVal → Bool
  | PyVal.int _ => true
  | _ => false

/-! ### External collaborators of the adapter layer -/

/-- Modelled from the spec: the batch envelope is "a record holding four
parallel fields" plus a batch-summary identifier
(`neuraxle.data_container.DataContainer` is not among the sources under
verification; only its four named fields are used here). -/
structure DataContainer where
  data_inputs : PyVal
  expected_outputs : PyVal
  current_ids : PyVal
  summary_id : PyVal

/-- Modelled from the spec: "an execution-context object exposing a path
accessor" (`neuraxle.base.ExecutionContext` is not among the sources under
verification). -/
structure ExecutionContext where
  path : String

/-- The path accessor; the boolean mirrors the `get_path(False)` call site. -/
def ExecutionContext.get_path (ctx : ExecutionContext) (_absolute : Bool) : String := ctx.path

/-- One outbound HTTP request as assembled by this layer. -/
structure HttpRequest where
  url : String
  method : String
  headers : List (String × String)
  data : String

/-- An HTTP-client-like Python object as duck-typed by `RestAPICaller`: it may
or may not expose a `get` callable returning the parsed JSON reply (or
raising). -/
structure PyHttpClient where
  get? : Option (HttpRequest → Except PyErr PyVal)

/-- Modelled from the Python standard library: the `urllib.request` module
object exposes no attribute named `get`, so `self.request.get` on it raises
`AttributeError`. -/
def urllib_request_module : PyHttpClient := ⟨none⟩

/-- The stub HTTP client of the spec: echoes the parsed request body back as
the parsed reply. -/
def echoClient : PyHttpClient :=
  ⟨some (fun req =>
    match json_loads req.data with
    | some v => Except.ok v
    | none => Except.error PyErr.jsonDecodeError)⟩

/-! ### `RestAPICaller` -/

/-- State of a `RestAPICaller` step after `__init__`. -/
structure RestAPICaller where
  url : String
  method : String
  request : PyHttpClient

/-- Translation of `RestAPICaller.__init__(self, url, method='GET',
request=None)`; an argument left to its Python default is passed as `none`. -/
def RestAPICaller.init (url : String) (method : Option String) (request : Option PyHttpClient) :
    RestAPICaller :=
  ⟨url, method.getD "GET", request.getD urllib_request_module⟩

/-- Translation of `RestAPICaller.transform`: always raises. -/
def RestAPICaller.transform (_c : RestAPICaller) (_data_inputs : PyVal) : Except PyErr PyVal :=
  Except.error (PyErr.notImplementedError "must be used inside a pipeline")

/-- The five-key request dictionary assembled by
`RestAPICaller._transform_data_container`: the three array fields are passed
through `np.array(...).tolist()`, `summary_id` is passed unconverted. -/
def dataDict (dc : DataContainer) (ctx : ExecutionContext) : PyVal :=
  PyVal.dict
    [("path", PyVal.str (ctx.get_path false)),
     ("data_inputs", np_tolist dc.data_inputs),
     ("expected_outputs", np_tolist dc.expected_outputs),
     ("current_ids", np_tolist dc.current_ids),
     ("summary_id", dc.summary_id)]

/-- Key lookup in an association list of object members. -/
def memberLookup (k : String) : List (String × PyVal) → Option PyVal
  | [] => none
  | (k2, v) :: ms => if k2 = k then some v else memberLookup k ms

/-- Python subscript `results[key]` on a parsed JSON object (`none` models the
raised `KeyError`/`TypeError`). -/
def dictGet (v : PyVal) (k : String) : Option PyVal :=
  match v with
  | PyVal.dict ms => memberLookup k ms
  | _ => none

/-- Translation of `RestAPICaller._transform_data_container`, with raised
exceptions made explicit in `Except` and the outbound `self.request.get` calls
logged in the second component: serialize the envelope fields into the
five-key dictionary, call `self.request.get` once on the configured url and
method with a JSON content-type header, and rebuild an envelope of numpy
arrays from the parsed reply. -/
def RestAPICaller._transform_data_container (c : RestAPICaller) (dc : DataContainer)
    (ctx : ExecutionContext) : Except PyErr DataContainer × List HttpRequest :=
  match json_dumps (dataDict dc ctx) with
  | none => (Except.error PyErr.typeError, [])
  | some data =>
    match c.request.get? with
    | none => (Except.error PyErr.attributeError, [])
    | some get =>
      let req : HttpRequest := ⟨c.url, c.method, [("content-type", "application/json")], data⟩
      match get req with
      | Except.error e => (Except.error e, [req])
      | Except.ok results =>
        match dictGet results "summary_id", dictGet results "current_ids",
              dictGet results "data_inputs", dictGet results "expected_outputs" with
        | some si, some ci, some di, some eo =>
          (Except.ok ⟨np_array di, np_array eo, np_array ci, np_array si⟩, [req])
        | _, _, _, _ => (Except.error PyErr.keyError, [req])

/-! ### Steps, pipeline and the REST binder -/

/-- A pipeline step, reduced to its `transform` behaviour. -/
structure BaseStep where
  transform : PyVal → Except PyErr PyVal

/-- Modelled from the spec: a pipeline is a "three-stage linear sequence"
whose transform applies each step's transform in order
(`neuraxle.pipeline.Pipeline` is not among the sources under verification). -/
structure Pipeline where
  steps : List BaseStep

/-- Sequential transform of a pipeline. -/
def Pipeline.transform (p : Pipeline) (x : PyVal) : Except PyErr PyVal :=
  p.steps.foldl (fun acc s => acc.bind s.transform) (Except.ok x)

/-- A concrete `JSONDataBodyDecoder` subclass is its `decode` implementation. -/
structure JSONDataBodyDecoder where
  decode : PyVal → Except PyErr PyVal

/-- Translation of `JSONDataBodyDecoder.transform`. -/
def JSONDataBodyDecoder.transform (d : JSONDataBodyDecoder) (x : PyVal) : Except PyErr PyVal :=
  d.decode x

/-- The decoder, seen as a pipeline step. -/
def JSONDataBodyDecoder.toStep (d : JSONDataBodyDecoder) : BaseStep := ⟨d.transform⟩

/-- Body of the abstract `JSONDataBodyDecoder.decode` stub. -/
def JSONDataBodyDecoder.decode_stub (_data_inputs : PyVal) : Except PyErr PyVal :=
  Except.error (PyErr.notImplementedError
    "TODO: inherit from the `JSONDataBodyDecoder` class and implement this method.")

/-- A concrete `JSONDataResponseEncoder` subclass is its `encode`
implementation. -/
structure JSONDataResponseEncoder where
  encode : PyVal → Except PyErr PyVal

/-- Model of `flask.jsonify`: a response object carrying a JSON payload. -/
def jsonify (v : PyVal) : PyVal := PyVal.response v

/-- Translation of `JSONDataResponseEncoder.transform`: jsonify the encoded
output. -/
def JSONDataResponseEncoder.transform (e : JSONDataResponseEncoder) (x : PyVal) :
    Except PyErr PyVal :=
  (e.encode x).map jsonify

/-- The encoder, seen as a pipeline step. -/
def JSONDataResponseEncoder.toStep (e : JSONDataResponseEncoder) : BaseStep := ⟨e.transform⟩

/-- Body of the abstract `JSONDataResponseEncoder.encode` stub. -/
def JSONDataResponseEncoder.encode_stub (_data_inputs : PyVal) : Except PyErr PyVal :=
  Except.error (PyErr.notImplementedError
    "TODO: inherit from the `JSONDataResponseEncoder` class and implement this method.")

/-- JSON payload of a flask response object. -/
def response_json : PyVal → Option PyVal
  | PyVal.response v => some v
  | _ => none

/-- State of a `FlaskRestApiWrapper` after `__init__`. -/
structure FlaskRestApiWrapper where
  pipeline : Pipeline
  route : String

/-- Translation of `FlaskRestApiWrapper.__init__(self, json_decoder, wrapped,
json_encoder, route='/')`: build the three-step pipeline and store the route;
a route left to its Python default is passed as `none`. -/
def FlaskRestApiWrapper.init (json_decoder : JSONDataBodyDecoder) (wrapped : BaseStep)
    (json_encoder : JSONDataResponseEncoder) (route : Option String) : FlaskRestApiWrapper :=
  ⟨⟨[json_decoder.toStep, wrapped, json_encoder.toStep]⟩, route.getD "/"⟩

/-- The wrapper is itself a pipeline; its transform is the pipeline's. -/
def FlaskRestApiWrapper.transform (w : FlaskRestApiWrapper) (x : PyVal) : Except PyErr PyVal :=
  w.pipeline.transform x

/-- Model of a flask_restful resource: it supports exactly the HTTP verbs for
which its class defines a handler; a handler receives the raw request body. -/
structure RESTfulRes where
  get : Option (String → Except PyErr PyVal)
  post : Option (String → Except PyErr PyVal)
  put : Option (String → Except PyErr PyVal)
  delete : Option (String → Except PyErr PyVal)

/-- Model of a flask application: its registered (route, resource) bindings. -/
structure FlaskApp where
  resources : List (String × RESTfulRes)

/-- Model of `flask.request.get_json()` applied to a raw request body. -/
def flask_get_json (raw : String) : Except PyErr PyVal :=
  match json_loads raw with
  | some v => Except.ok v
  | none => Except.error PyErr.jsonDecodeError

/-- Translation of `FlaskRestApiWrapper.get_app`: one resource, registered at
the configured route, whose only handler is `get`, running the wrapped
pipeline on the JSON-parsed request body. -/
def FlaskRestApiWrapper.get_app (w : FlaskRestApiWrapper) : FlaskApp :=
  ⟨[(w.route, ⟨some (fun raw => (flask_get_json raw).bind w.transform), none, none, none⟩)]⟩

/-! ### `RequestWrapper` and `UrllibRequestWrapper` -/

/-- Body of the abstract `RequestWrapper.post` stub: `pass` returns `None`. -/
def RequestWrapper.post_stub (_host : String) (_files : PyVal) : Except PyErr PyVal :=
  Except.ok PyVal.pynone

/-- Body of the abstract `RequestWrapper.get` stub: `pass` returns `None`. -/
def RequestWrapper.get_stub (_url _method : String) (_headers : List (String × String))
    (_data : String) : Except PyErr PyVal :=
  Except.ok PyVal.pynone

/-- The blocking transport underneath `urllib.request`: building a `Request`,
`urlopen`-ing it and `read`-ing the response yields the raw body, or a
transport error. -/
abbrev Network : Type := HttpRequest → Except PyErr String

/-- Translation of `UrllibRequestWrapper.get`, with the one transport call
logged: build a request from exactly the four arguments, open it, read the
body and JSON-parse it; any transport or parse failure propagates. -/
def UrllibRequestWrapper.get (net : Network) (url : String) (method : String)
    (headers : List (String × String)) (data : String) :
    Except PyErr PyVal × List HttpRequest :=
  let req : HttpRequest := ⟨url, method, headers, data⟩
  match net req with
  | Except.error e => (Except.error e, [req])
  | Except.ok body =>
    match json_loads body with
    | some v => (Except.ok v, [req])
    | none => (Except.error PyErr.jsonDecodeError, [req])

/-- Translation of `UrllibRequestWrapper.post` (its body is `pass`): returns
`None` and makes no transport call. -/
def UrllibRequestWrapper.post (_net : Network) (_url : String) (_files : PyVal) :
    Except PyErr PyVal × List HttpRequest :=
  (Except.ok PyVal.pynone, [])

/-! ### Concrete codecs used by witnesses -/

/-- Example encoder body for witnesses: wrap the value under a fixed key. -/
def sampleEncode (v : PyVal) : Except PyErr PyVal :=
  Except.ok (PyVal.dict [("payload", v)])

/-- Example decoder body for witnesses: the inverse of `sampleEncode`. -/
def sampleDecode (v : PyVal) : Except PyErr PyVal :=
  match dictGet v "payload" with
  | some x => Except.ok x
  | none => Except.error PyErr.keyError

/-- The identity processing unit. -/
def idStep : BaseStep := ⟨fun x => Except.ok x⟩

/-! ### Predicates and sample data used by the verification -/

/-- Guard used by the parser lemmas: the remainder does not start with a
character satisfying `p`. -/
def headNot (p : Char → Bool) : List Char → Prop
  | [] => True
  | c :: _ => p c = false

/-- Parser correctness bundle for one value: with fuel at least `k`, parsing
the serialization of `v` followed by any non-digit-headed remainder yields
exactly `v` and that remainder. -/
def ValOk (v : PyVal) (k : Nat) : Prop :=
  ∀ f rest, k ≤ f → headNot isDigitC rest →
    jparseV f (jdump v ++ rest) = some (v, rest)

/-- The serialization of the value is nonempty and starts with a character
that is neither whitespace nor a closing bracket. -/
def headOkDump (v : PyVal) : Prop :=
  match jdump v with
  | [] => False
  | c :: _ => isWsChar c = false ∧ c ≠ ']'

/-- The concrete batch envelope of the spec's testable property:
`data_inputs=[1,2,3]`, `expected_outputs=[4,5,6]`, `current_ids=[0,1,2]`,
`summary_id=7`. -/
def dc0 : DataContainer :=
  ⟨PyVal.list [PyVal.int 1, PyVal.int 2, PyVal.int 3],
   PyVal.list [PyVal.int 4, PyVal.int 5, PyVal.int 6],
   PyVal.list [PyVal.int 0, PyVal.int 1, PyVal.int 2],
   PyVal.int 7⟩

/-- A concrete execution context. -/
def ctx0 : ExecutionContext := ⟨"Pipeline/RestAPICaller"⟩

/-- A concrete remote caller wired to the echo stub client. -/
def caller0 : RestAPICaller := ⟨"http://localhost:5000/", "GET", echoClient⟩

/-- A concrete transport that always fails (an unreachable URL). -/
def netDown : Network := fun _ => Except.error PyErr.urlError

/-- A concrete transport that replies with a fixed JSON body. -/
def netSeven : Network := fun _ => Except.ok "7"

/-- A concrete transport that replies with a body that is not JSON. -/
def netGarbled : Network := fun _ => Except.ok "a"

/-- A concrete domain object for the codec round-trip witness. -/
def dom0 : PyVal := PyVal.list [PyVal.int 1, PyVal.int 2]

/-- A concrete wrapper built from the sample codecs and the identity unit. -/
def wrapper0 : FlaskRestApiWrapper :=
  FlaskRestApiWrapper.init ⟨sampleDecode⟩ idStep ⟨sampleEncode⟩ none

/-! ### Digits: the serializer prints exactly what the parser reads back -/

theorem digitChar_isDigit : ∀ m, m < 10 → isDigitC (digitChar m) = true := by decide

theorem digitVal_digitChar : ∀ m, m < 10 → digitVal (digitChar m) = m := by decide

theorem natCharsRev_digits (n : Nat) : ∀ c ∈ natCharsRev n, isDigitC c = true := by
  induction n using Nat.strong_induction_on with
  | _ n ih =>
    rw [natCharsRev]
    split
    next h =>
      intro c hc
      rw [List.mem_singleton] at hc
      subst hc
      exact digitChar_isDigit n h
    next h =>
      intro c hc
      rcases List.mem_cons.mp hc with h2 | h2
      · subst h2
        exact digitChar_isDigit _ (Nat.mod_lt _ (by omega))
      · exact ih (n / 10) (Nat.div_lt_self (by omega) (by omega)) c h2

theorem natChars_digits (n : Nat) : ∀ c ∈ natChars n, isDigitC c = true := by
  intro c hc
  exact natCharsRev_digits n c (List.mem_reverse.mp hc)

theorem natCharsRev_ne_nil (n : Nat) : natCharsRev n ≠ [] := by
  rw [natCharsRev]
  split <;> simp

theorem natChars_ne_nil (n : Nat) : natChars n ≠ [] := by
  unfold natChars
  simpa using natCharsRev_ne_nil n

theorem digitsVal_append (l : List Char) (c : Char) :
    digitsVal (l ++ [c]) = 10 * digitsVal l + digitVal c := by
  unfold digitsVal
  rw [List.foldl_append]
  rfl

theorem natChars_lt10 (n : Nat) (h : n < 10) : natChars n = [digitChar n] := by
  unfold natChars
  rw [natCharsRev, dif_pos h]
  rfl

theorem natChars_ge10 (n : Nat) (h : ¬ n < 10) :
    natChars n = natChars (n / 10) ++ [digitChar (n % 10)] := by
  unfold natChars
  conv_lhs => rw [natCharsRev]
  rw [dif_neg h]
  simp

theorem digitsVal_natChars (n : Nat) : digitsVal (natChars n) = n := by
  induction n using Nat.strong_induction_on with
  | _ n ih =>
    by_cases h : n < 10
    · rw [natChars_lt10 n h]
      have hv := digitVal_digitChar n h
      simp [digitsVal, hv]
    · rw [natChars_ge10 n h, digitsVal_append,
        ih (n / 10) (Nat.div_lt_self (by omega) (by omega))]
      have h2 : digitVal (digitChar (n % 10)) = n % 10 :=
        digitVal_digitChar _ (Nat.mod_lt _ (by omega))
      omega

theorem takeWhile_append_all (p : Char → Bool) (l r : List Char)
    (hl : ∀ c ∈ l, p c = true) (hr : headNot p r) :
    (l ++ r).takeWhile p = l := by
  induction l with
  | nil =>
    simp only [List.nil_append]
    cases r with
    | nil => rfl
    | cons c cs =>
      have hc : p c = false := hr
      simp [List.takeWhile_cons, hc]
  | cons a l ihl =>
    have ha := hl a (List.mem_cons_self a l)
    simp only [List.cons_append, List.takeWhile_cons, ha, if_true]
    simp [ihl (fun c hc => hl c (List.mem_cons_of_mem a hc))]

theorem dropWhile_append_all (p : Char → Bool) (l r : List Char)
    (hl : ∀ c ∈ l, p c = true) (hr : headNot p r) :
    (l ++ r).dropWhile p = r := by
  induction l with
  | nil =>
    simp only [List.nil_append]
    cases r with
    | nil => rfl
    | cons c cs =>
      have hc : p c = false := hr
      simp [List.dropWhile_cons, hc]
  | cons a l ihl =>
    have ha := hl a (List.mem_cons_self a l)
    simp only [List.cons_append, List.dropWhile_cons, ha, if_true]
    exact ihl (fun c hc => hl c (List.mem_cons_of_mem a hc))

theorem pnat_natChars (n : Nat) (rest : List Char) (hr : headNot isDigitC rest) :
    pnat (natChars n ++ rest) = some (n, rest) := by
  unfold pnat
  rw [takeWhile_append_all isDigitC _ _ (natChars_digits n) hr,
      dropWhile_append_all isDigitC _ _ (natChars_digits n) hr]
  rcases hnc : natChars n with _ | ⟨c, cs⟩
  · exact absurd hnc (natChars_ne_nil n)
  · show some (digitsVal (c :: cs), rest) = some (n, rest)
    rw [← hnc, digitsVal_natChars]

theorem skipWs_cons_false (c : Char) (cs : List Char) (h : isWsChar c = false) :
    skipWs (c :: cs) = c :: cs := by
  simp [skipWs, h]

theorem digit_props (c : Char) (h : isDigitC c = true) :
    isWsChar c = false ∧ c ≠ '"' ∧ c ≠ '[' ∧ c ≠ '\x7b' ∧ c ≠ 'n' ∧ c ≠ '-' ∧ c ≠ ']' := by
  have hb : 48 ≤ c.toNat ∧ c.toNat ≤ 57 := by simpa [isDigitC] using h
  have hsp : c ≠ ' ' := fun he => by rw [he] at hb; exact absurd hb (by decide)
  have hta : c ≠ '\t' := fun he => by rw [he] at hb; exact absurd hb (by decide)
  have hnl : c ≠ '\n' := fun he => by rw [he] at hb; exact absurd hb (by decide)
  have hcr : c ≠ '\r' := fun he => by rw [he] at hb; exact absurd hb (by decide)
  refine ⟨by simp [isWsChar, hsp, hta, hnl, hcr], ?_, ?_, ?_, ?_, ?_, ?_⟩
  · exact fun he => by rw [he] at hb; exact absurd hb (by decide)
  · exact fun he => by rw [he] at hb; exact absurd hb (by decide)
  · exact fun he => by rw [he] at hb; exact absurd hb (by decide)
  · exact fun he => by rw [he] at hb; exact absurd hb (by decide)
  · exact fun he => by rw [he] at hb; exact absurd hb (by decide)
  · exact fun he => by rw [he] at hb; exact absurd hb (by decide)


theorem pstringChars_cons_quote (cs : List Char) :
    pstringChars ('"' :: cs) = some ([], cs) := by
  unfold pstringChars
  rfl

theorem pstringChars_cons_esc (e : Char) (cs : List Char) :
    pstringChars ('\\' :: e :: cs) =
      (pstringChars cs).map (fun p => (unescChar e :: p.1, p.2)) := by
  rw [pstringChars.eq_def]
  rfl

theorem pstringChars_cons_other (c : Char) (cs : List Char) (hq : c ≠ '"') (hb : c ≠ '\\') :
    pstringChars (c :: cs) = (pstringChars cs).map (fun p => (c :: p.1, p.2)) := by
  rw [pstringChars.eq_def]
  show (if c = '"' then some ([], cs)
        else if c = '\\' then
          match cs with
          | [] => none
          | e :: rest2 => (pstringChars rest2).map (fun p => (unescChar e :: p.1, p.2))
        else (pstringChars cs).map (fun p => (c :: p.1, p.2))) = _
  rw [if_neg hq, if_neg hb]

theorem pstringChars_escape (l rest : List Char) :
    pstringChars (escapeStr l ++ '"' :: rest) = some (l, rest) := by
  induction l with
  | nil =>
    have h0 : escapeStr [] = [] := rfl
    rw [h0, List.nil_append, pstringChars_cons_quote]
  | cons c l ih =>
    have hstep : escapeStr (c :: l) = escapeChar c ++ escapeStr l := by simp [escapeStr]
    rw [hstep, List.append_assoc]
    by_cases hq : c = '"'
    · subst hq
      have he : escapeChar '"' = ['\\', '"'] := rfl
      rw [he]
      show pstringChars ('\\' :: '"' :: (escapeStr l ++ '"' :: rest)) = _
      rw [pstringChars_cons_esc, ih]
      rfl
    · by_cases hb : c = '\\'
      · subst hb
        have he : escapeChar '\\' = ['\\', '\\'] := rfl
        rw [he]
        show pstringChars ('\\' :: '\\' :: (escapeStr l ++ '"' :: rest)) = _
        rw [pstringChars_cons_esc, ih]
        rfl
      · have he : escapeChar c = [c] := by simp [escapeChar, hq, hb]
        rw [he]
        show pstringChars (c :: (escapeStr l ++ '"' :: rest)) = _
        rw [pstringChars_cons_other c _ hq hb, ih]
        rfl

theorem jparseV_succ_quote (f : Nat) (tail : List Char) :
    jparseV (f+1) ('"' :: tail) =
      (match pstringChars tail with
       | some (s, r) => some (PyVal.str (String.mk s), r)
       | none => none) := by
  simp only [jparseV]
  rw [skipWs_cons_false '"' tail (by decide)]
  split
  next heq => exact absurd heq (by simp)
  next c rest heq =>
    obtain ⟨rfl, rfl⟩ : c = '"' ∧ rest = tail := by
      injection heq with h1 h2
      exact ⟨h1.symm, h2.symm⟩
    rw [if_pos rfl]

theorem jparseV_succ_lbrack (f : Nat) (tail : List Char) :
    jparseV (f+1) ('[' :: tail) =
      (match skipWs tail with
       | ']' :: r => some (PyVal.list [], r)
       | cs2 =>
         match jparseElems f cs2 with
         | some (vs, r) => some (PyVal.list vs, r)
         | none => none) := by
  simp only [jparseV]
  rw [skipWs_cons_false '[' tail (by decide)]
  split
  next heq => exact absurd heq (by simp)
  next c rest heq =>
    obtain ⟨rfl, rfl⟩ : c = '[' ∧ rest = tail := by
      injection heq with h1 h2
      exact ⟨h1.symm, h2.symm⟩
    rw [if_neg (by decide), if_pos rfl]

theorem jparseV_succ_lbrace (f : Nat) (tail : List Char) :
    jparseV (f+1) ('\x7b' :: tail) =
      (match skipWs tail with
       | '\x7d' :: r => some (PyVal.dict [], r)
       | cs2 =>
         match jparseMembers f cs2 with
         | some (ms, r) => some (PyVal.dict ms, r)
         | none => none) := by
  simp only [jparseV]
  rw [skipWs_cons_false '\x7b' tail (by decide)]
  split
  next heq => exact absurd heq (by simp)
  next c rest heq =>
    obtain ⟨rfl, rfl⟩ : c = '\x7b' ∧ rest = tail := by
      injection heq with h1 h2
      exact ⟨h1.symm, h2.symm⟩
    rw [if_neg (by decide), if_neg (by decide), if_pos rfl]

theorem jparseV_succ_null (f : Nat) (tail : List Char) :
    jparseV (f+1) ('n' :: tail) =
      (match tail with
       | 'u' :: 'l' :: 'l' :: r => some (PyVal.pynone, r)
       | _ => none) := by
  simp only [jparseV]
  rw [skipWs_cons_false 'n' tail (by decide)]
  split
  next heq => exact absurd heq (by simp)
  next c rest heq =>
    obtain ⟨rfl, rfl⟩ : c = 'n' ∧ rest = tail := by
      injection heq with h1 h2
      exact ⟨h1.symm, h2.symm⟩
    rw [if_neg (by decide), if_neg (by decide), if_neg (by decide), if_pos rfl]

theorem jparseV_succ_dash (f : Nat) (tail : List Char) :
    jparseV (f+1) ('-' :: tail) =
      (match pnat tail with
       | some (m, r) => some (PyVal.int (-(m : Int)), r)
       | none => none) := by
  simp only [jparseV]
  rw [skipWs_cons_false '-' tail (by decide)]
  split
  next heq => exact absurd heq (by simp)
  next c rest heq =>
    obtain ⟨rfl, rfl⟩ : c = '-' ∧ rest = tail := by
      injection heq with h1 h2
      exact ⟨h1.symm, h2.symm⟩
    rw [if_neg (by decide), if_neg (by decide), if_neg (by decide), if_neg (by decide),
      if_pos rfl]

theorem jparseV_succ_other (f : Nat) (c : Char) (tail : List Char)
    (hws : isWsChar c = false) (h1 : c ≠ '"') (h2 : c ≠ '[') (h3 : c ≠ '\x7b')
    (h4 : c ≠ 'n') (h5 : c ≠ '-') :
    jparseV (f+1) (c :: tail) =
      (match pnat (c :: tail) with
       | some (m, r) => some (PyVal.int (m : Int), r)
       | none => none) := by
  simp only [jparseV]
  rw [skipWs_cons_false c tail hws]
  split
  next heq => exact absurd heq (by simp)
  next c2 rest heq =>
    obtain ⟨rfl, rfl⟩ : c = c2 ∧ tail = rest := by
      injection heq with hh1 hh2
      exact ⟨hh1, hh2⟩
    rw [if_neg h1, if_neg h2, if_neg h3, if_neg h4, if_neg h5]

theorem valOk_int (n : Int) : ValOk (PyVal.int n) 1 := by
  intro f rest hf hr
  obtain ⟨g, rfl⟩ : ∃ g, f = g + 1 := ⟨f - 1, by omega⟩
  show jparseV (g + 1) (intChars n ++ rest) = some (PyVal.int n, rest)
  unfold intChars
  by_cases hneg : n < 0
  · rw [if_pos hneg]
    simp only [List.cons_append]
    rw [jparseV_succ_dash g (natChars n.natAbs ++ rest)]
    rw [pnat_natChars n.natAbs rest hr]
    show some (PyVal.int (-(n.natAbs : Int)), rest) = some (PyVal.int n, rest)
    have hv : -(n.natAbs : Int) = n := by omega
    rw [hv]
  · rw [if_neg hneg]
    rcases hnc : natChars n.natAbs with _ | ⟨c, cs⟩
    · exact absurd hnc (natChars_ne_nil _)
    · have hdc : isDigitC c = true :=
        natChars_digits _ c (by rw [hnc]; exact List.mem_cons_self c cs)
      obtain ⟨hws, hq, hlb, hbb, hn, hdash, _⟩ := digit_props c hdc
      simp only [List.cons_append]
      rw [jparseV_succ_other g c (cs ++ rest) hws hq hlb hbb hn hdash]
      rw [← List.cons_append, ← hnc, pnat_natChars n.natAbs rest hr]
      show some (PyVal.int ((n.natAbs : Int)), rest) = some (PyVal.int n, rest)
      have hv : (n.natAbs : Int) = n := by omega
      rw [hv]

theorem jparseV_ws (f : Nat) (c : Char) (cs : List Char) (hc : isWsChar c = true) :
    jparseV f (c :: cs) = jparseV f cs := by
  cases f with
  | zero => rfl
  | succ g => simp only [jparseV, skipWs, hc, if_true]

theorem jparseElems_ws (f : Nat) (c : Char) (cs : List Char) (hc : isWsChar c = true) :
    jparseElems f (c :: cs) = jparseElems f cs := by
  cases f with
  | zero => rfl
  | succ g =>
    simp only [jparseElems]
    rw [jparseV_ws g c cs hc]

theorem jparseMembers_ws (f : Nat) (c : Char) (cs : List Char) (hc : isWsChar c = true) :
    jparseMembers f (c :: cs) = jparseMembers f cs := by
  cases f with
  | zero => rfl
  | succ g => simp only [jparseMembers, skipWs, hc, if_true]

theorem valOk_str (s : String) : ValOk (PyVal.str s) 1 := by
  intro f rest hf _hr
  obtain ⟨g, rfl⟩ : ∃ g, f = g + 1 := ⟨f - 1, by omega⟩
  obtain ⟨l⟩ := s
  show jparseV (g + 1) (('"' :: (escapeStr l ++ ['"'])) ++ rest) =
    some (PyVal.str (String.mk l), rest)
  simp only [List.cons_append, List.append_assoc, List.singleton_append]
  rw [jparseV_succ_quote, pstringChars_escape]
  simp

theorem valOk_pynone : ValOk PyVal.pynone 1 := by
  intro f rest hf _hr
  obtain ⟨g, rfl⟩ : ∃ g, f = g + 1 := ⟨f - 1, by omega⟩
  show jparseV (g + 1) ('n' :: 'u' :: 'l' :: 'l' :: rest) = some (PyVal.pynone, rest)
  rw [jparseV_succ_null]
  rfl

theorem valOk_mono (v : PyVal) (k k2 : Nat) (hk : k ≤ k2) (h : ValOk v k) : ValOk v k2 :=
  fun f rest hf hr => h f rest (le_trans hk hf) hr

theorem headOkDump_elim (v : PyVal) (h : headOkDump v) :
    ∃ c t, jdump v = c :: t ∧ isWsChar c = false ∧ c ≠ ']' := by
  unfold headOkDump at h
  rcases hdv : jdump v with _ | ⟨c, t⟩
  · rw [hdv] at h
    exact h.elim
  · rw [hdv] at h
    exact ⟨c, t, rfl, h.1, h.2⟩

theorem headOkDump_int (n : Int) : headOkDump (PyVal.int n) := by
  unfold headOkDump
  simp only [jdump]
  unfold intChars
  by_cases hneg : n < 0
  · rw [if_pos hneg]
    exact ⟨by decide, by decide⟩
  · rw [if_neg hneg]
    rcases hnc : natChars n.natAbs with _ | ⟨c, cs⟩
    · exact absurd hnc (natChars_ne_nil _)
    · have hdc : isDigitC c = true :=
        natChars_digits _ c (by rw [hnc]; exact List.mem_cons_self c cs)
      obtain ⟨hws, _, _, _, _, _, hrb⟩ := digit_props c hdc
      exact ⟨hws, hrb⟩

theorem headOkDump_str (s : String) : headOkDump (PyVal.str s) := by
  unfold headOkDump
  simp only [jdump]
  exact ⟨by decide, by decide⟩

theorem headOkDump_pynone : headOkDump PyVal.pynone := by
  unfold headOkDump
  simp only [jdump]
  exact ⟨by decide, by decide⟩

theorem headOkDump_list (xs : List PyVal) : headOkDump (PyVal.list xs) := by
  unfold headOkDump
  simp only [jdump]
  exact ⟨by decide, by decide⟩

theorem headOkDump_dict (ms : List (String × PyVal)) : headOkDump (PyVal.dict ms) := by
  unfold headOkDump
  simp only [jdump]
  exact ⟨by decide, by decide⟩

theorem jparseElems_ok (k : Nat) :
    ∀ (vs : List PyVal), (∀ v ∈ vs, ValOk v k) → vs ≠ [] →
    ∀ f rest, k + vs.length ≤ f →
      jparseElems f (jdumpElems vs ++ ']' :: rest) = some (vs, rest) := by
  intro vs
  induction vs with
  | nil => exact fun _ hne => absurd rfl hne
  | cons v vs ih =>
    intro hAll _ f rest hf
    simp only [List.length_cons] at hf
    obtain ⟨g, rfl⟩ : ∃ g, f = g + 1 := ⟨f - 1, by omega⟩
    have hg : k ≤ g := by omega
    cases vs with
    | nil =>
      have h1 : jdumpElems [v] = jdump v := by simp [jdumpElems]
      rw [h1]
      simp only [jparseElems]
      rw [hAll v (List.mem_cons_self v []) g (']' :: rest) hg
        (show isDigitC ']' = false by decide)]
      rfl
    | cons w ws =>
      have h1 : jdumpElems (v :: w :: ws) = jdump v ++ ',' :: ' ' :: jdumpElems (w :: ws) := by
        simp [jdumpElems]
      rw [h1]
      simp only [List.append_assoc, List.cons_append]
      simp only [jparseElems]
      rw [hAll v (List.mem_cons_self v (w :: ws)) g
        (',' :: ' ' :: (jdumpElems (w :: ws) ++ ']' :: rest)) hg
        (show isDigitC ',' = false by decide)]
      show (match jparseElems g (' ' :: (jdumpElems (w :: ws) ++ ']' :: rest)) with
            | some (vs2, r3) => some (v :: vs2, r3)
            | none => none) = some (v :: w :: ws, rest)
      rw [jparseElems_ws g ' ' _ (by decide)]
      rw [ih (fun u hu => hAll u (List.mem_cons_of_mem v hu)) (by simp) g rest
        (by simp only [List.length_cons] at hf ⊢; omega)]

theorem valOk_list (vs : List PyVal) (k : Nat) (hAll : ∀ v ∈ vs, ValOk v k)
    (hHead : ∀ v ∈ vs, headOkDump v) :
    ValOk (PyVal.list vs) (k + vs.length + 2) := by
  intro f rest hf _hr
  obtain ⟨g, rfl⟩ : ∃ g, f = g + 1 := ⟨f - 1, by omega⟩
  have hjd : jdump (PyVal.list vs) = '[' :: (jdumpElems vs ++ [']']) := by simp [jdump]
  rw [hjd]
  simp only [List.cons_append, List.append_assoc, List.singleton_append, List.nil_append]
  rw [jparseV_succ_lbrack]
  cases vs with
  | nil =>
    have h0 : jdumpElems ([] : List PyVal) = [] := by simp [jdumpElems]
    rw [h0]
    simp only [List.nil_append]
    rfl
  | cons v vs2 =>
    obtain ⟨c, t, hdv, hcw, hcb⟩ :=
      headOkDump_elim v (hHead v (List.mem_cons_self v vs2))
    have hhd : ∃ T, jdumpElems (v :: vs2) = c :: T := by
      cases vs2 with
      | nil => exact ⟨t, by simp [jdumpElems, hdv]⟩
      | cons w ws =>
        exact ⟨t ++ ',' :: ' ' :: jdumpElems (w :: ws), by simp [jdumpElems, hdv]⟩
    obtain ⟨T, hT⟩ := hhd
    rw [hT]
    simp only [List.cons_append]
    rw [skipWs_cons_false c _ hcw]
    split
    next r heq =>
      injection heq with h1 _
      exact absurd h1 hcb
    next =>
      rw [← List.cons_append, ← hT,
        jparseElems_ok k (v :: vs2) hAll (by simp) g rest
          (by simp only [List.length_cons] at hf ⊢; omega)]

theorem jparseMembers_succ_quote (f : Nat) (tail : List Char) :
    jparseMembers (f+1) ('"' :: tail) =
      (match pstringChars tail with
       | some (kk, r) =>
         match skipWs r with
         | ':' :: r1 =>
           match jparseV f r1 with
           | some (v, r2) =>
             match skipWs r2 with
             | ',' :: r3 =>
               match jparseMembers f r3 with
               | some (ms, r4) => some ((String.mk kk, v) :: ms, r4)
               | none => none
             | '\x7d' :: r3 => some ([(String.mk kk, v)], r3)
             | _ => none
           | none => none
         | _ => none
       | none => none) := by
  simp only [jparseMembers]
  rw [skipWs_cons_false '"' tail (by decide)]
  split
  next cs1 heq =>
    simp only [List.cons.injEq, true_and] at heq
    subst heq
    rfl
  next hne => exact (hne tail rfl).elim

theorem jparseMembers_ok (k : Nat) :
    ∀ (ms : List (String × PyVal)), (∀ m ∈ ms, ValOk m.2 k) → ms ≠ [] →
    ∀ f rest, k + ms.length ≤ f →
      jparseMembers f (jdumpMembers ms ++ '\x7d' :: rest) = some (ms, rest) := by
  intro ms
  induction ms with
  | nil => exact fun _ hne => absurd rfl hne
  | cons m ms ih =>
    intro hAll _ f rest hf
    simp only [List.length_cons] at hf
    obtain ⟨g, rfl⟩ : ∃ g, f = g + 1 := ⟨f - 1, by omega⟩
    have hg : k ≤ g := by omega
    obtain ⟨kk, v⟩ := m
    cases ms with
    | nil =>
      have h1 : jdumpMembers [(kk, v)] =
          '"' :: (escapeStr kk.data ++ ['"', ':', ' ']) ++ jdump v := by
        simp [jdumpMembers]
      rw [h1]
      simp only [List.cons_append, List.append_assoc, List.singleton_append, List.nil_append]
      rw [jparseMembers_succ_quote]
      rw [pstringChars_escape kk.data (':' :: ' ' :: (jdump v ++ '\x7d' :: rest))]
      show (match jparseV g (' ' :: (jdump v ++ '\x7d' :: rest)) with
            | some (v2, r2) =>
              match skipWs r2 with
              | ',' :: r3 =>
                match jparseMembers g r3 with
                | some (ms2, r4) => some ((String.mk kk.data, v2) :: ms2, r4)
                | none => none
              | '\x7d' :: r3 => some ([(String.mk kk.data, v2)], r3)
              | _ => none
            | none => none) = some ([(kk, v)], rest)
      rw [jparseV_ws g ' ' _ (by decide)]
      rw [hAll (kk, v) (List.mem_cons_self _ _) g ('\x7d' :: rest) hg
        (show isDigitC '\x7d' = false by decide)]
      rfl
    | cons m2 ms3 =>
      have h1 : jdumpMembers ((kk, v) :: m2 :: ms3) =
          ('"' :: (escapeStr kk.data ++ ['"', ':', ' ']) ++ jdump v) ++
            ',' :: ' ' :: jdumpMembers (m2 :: ms3) := by
        simp [jdumpMembers]
      rw [h1]
      simp only [List.cons_append, List.append_assoc, List.singleton_append, List.nil_append]
      rw [jparseMembers_succ_quote]
      rw [pstringChars_escape kk.data
        (':' :: ' ' :: (jdump v ++ ',' :: ' ' :: (jdumpMembers (m2 :: ms3) ++ '\x7d' :: rest)))]
      show (match jparseV g
              (' ' :: (jdump v ++ ',' :: ' ' :: (jdumpMembers (m2 :: ms3) ++ '\x7d' :: rest))) with
            | some (v2, r2) =>
              match skipWs r2 with
              | ',' :: r3 =>
                match jparseMembers g r3 with
                | some (ms2, r4) => some ((String.mk kk.data, v2) :: ms2, r4)
                | none => none
              | '\x7d' :: r3 => some ([(String.mk kk.data, v2)], r3)
              | _ => none
            | none => none) = some ((kk, v) :: m2 :: ms3, rest)
      rw [jparseV_ws g ' ' _ (by decide)]
      rw [hAll (kk, v) (List.mem_cons_self _ _) g
        (',' :: ' ' :: (jdumpMembers (m2 :: ms3) ++ '\x7d' :: rest)) hg
        (show isDigitC ',' = false by decide)]
      show (match jparseMembers g (' ' :: (jdumpMembers (m2 :: ms3) ++ '\x7d' :: rest)) with
            | some (ms2, r4) => some ((String.mk kk.data, v) :: ms2, r4)
            | none => none) = some ((kk, v) :: m2 :: ms3, rest)
      rw [jparseMembers_ws g ' ' _ (by decide)]
      rw [ih (fun u hu => hAll u (List.mem_cons_of_mem _ hu)) (by simp) g rest
        (by simp only [List.length_cons] at hf ⊢; omega)]

theorem valOk_dict (ms : List (String × PyVal)) (k : Nat)
    (hAll : ∀ m ∈ ms, ValOk m.2 k) (hne : ms ≠ []) :
    ValOk (PyVal.dict ms) (k + ms.length + 2) := by
  intro f rest hf _hr
  obtain ⟨g, rfl⟩ : ∃ g, f = g + 1 := ⟨f - 1, by omega⟩
  have hjd : jdump (PyVal.dict ms) = '\x7b' :: (jdumpMembers ms ++ ['\x7d']) := by simp [jdump]
  rw [hjd]
  simp only [List.cons_append, List.append_assoc, List.singleton_append, List.nil_append]
  rw [jparseV_succ_lbrace]
  obtain ⟨m, ms2, rfl⟩ : ∃ m ms2, ms = m :: ms2 := by
    cases ms with
    | nil => exact absurd rfl hne
    | cons m ms2 => exact ⟨m, ms2, rfl⟩
  have hT : ∃ T, jdumpMembers (m :: ms2) = '"' :: T := by
    obtain ⟨kk, v⟩ := m
    cases ms2 with
    | nil => exact ⟨escapeStr kk.data ++ ['"', ':', ' '] ++ jdump v, by simp [jdumpMembers]⟩
    | cons m2 ms3 =>
      exact ⟨escapeStr kk.data ++ ['"', ':', ' '] ++ jdump v ++
        ',' :: ' ' :: jdumpMembers (m2 :: ms3), by simp [jdumpMembers]⟩
  obtain ⟨T, hTm⟩ := hT
  rw [hTm]
  simp only [List.cons_append]
  rw [skipWs_cons_false '"' _ (by decide)]
  split
  next r heq =>
    injection heq with h1 _
    exact absurd h1 (by decide)
  next =>
    rw [← List.cons_append, ← hTm,
      jparseMembers_ok k (m :: ms2) hAll (by simp) g rest
        (by simp only [List.length_cons] at hf ⊢; omega)]

theorem json_loads_of_valOk (v : PyVal) (k : Nat) (hv : ValOk v k)
    (hlen : k ≤ (jdump v).length + 1) :
    json_loads (String.mk (jdump v)) = some v := by
  unfold json_loads
  have hdata : (String.mk (jdump v)).data = jdump v := rfl
  rw [hdata]
  have h := hv ((jdump v).length + 1) [] (by omega) trivial
  rw [List.append_nil] at h
  rw [h]
  rfl

theorem intChars_ne_nil (n : Int) : intChars n ≠ [] := by
  unfold intChars
  split
  · simp
  · exact natChars_ne_nil _

theorem np_tolistL_map_int (xs : List Int) :
    np_tolistL (xs.map PyVal.int) = xs.map PyVal.int := by
  induction xs with
  | nil => simp [np_tolistL]
  | cons x xs ih => simp [np_tolistL, np_tolist, ih]

theorem np_tolist_map_int (xs : List Int) :
    np_tolist (PyVal.list (xs.map PyVal.int)) = PyVal.list (xs.map PyVal.int) := by
  simp [np_tolist, np_tolistL_map_int]

theorem np_tolist_int (n : Int) : np_tolist (PyVal.int n) = PyVal.int n := by
  simp [np_tolist]

theorem np_tolist_ndarray (v : PyVal) : np_tolist (PyVal.ndarray v) = np_tolist v := by
  simp [np_tolist]

theorem intList_elems (l : List PyVal)
    (h : l.all (fun v => match v with | PyVal.int _ => true | _ => false) = true) :
    ∃ xs : List Int, l = xs.map PyVal.int := by
  induction l with
  | nil => exact ⟨[], rfl⟩
  | cons a l ih =>
    simp only [List.all_cons, Bool.and_eq_true] at h
    obtain ⟨xs, rfl⟩ := ih h.2
    cases a with
    | int n => exact ⟨n :: xs, rfl⟩
    | str s => exact Bool.noConfusion h.1
    | pynone => exact Bool.noConfusion h.1
    | list l2 => exact Bool.noConfusion h.1
    | dict ms => exact Bool.noConfusion h.1
    | ndarray w => exact Bool.noConfusion h.1
    | response w => exact Bool.noConfusion h.1

theorem isIntList_shape (v : PyVal) (h : isIntList v = true) :
    ∃ xs : List Int, v = PyVal.list (xs.map PyVal.int) := by
  cases v with
  | int n => exact Bool.noConfusion h
  | str s => exact Bool.noConfusion h
  | pynone => exact Bool.noConfusion h
  | list l =>
    simp only [isIntList] at h
    obtain ⟨xs, rfl⟩ := intList_elems l h
    exact ⟨xs, rfl⟩
  | dict ms => exact Bool.noConfusion h
  | ndarray w => exact Bool.noConfusion h
  | response w => exact Bool.noConfusion h

theorem isInt_shape (v : PyVal) (h : isInt v = true) : ∃ n : Int, v = PyVal.int n := by
  cases v with
  | int n => exact ⟨n, rfl⟩
  | str s => exact Bool.noConfusion h
  | pynone => exact Bool.noConfusion h
  | list l => exact Bool.noConfusion h
  | dict ms => exact Bool.noConfusion h
  | ndarray w => exact Bool.noConfusion h
  | response w => exact Bool.noConfusion h

theorem jsonableElems_map_int (xs : List Int) : jsonableElems (xs.map PyVal.int) = true := by
  induction xs with
  | nil => simp [jsonableElems]
  | cons x xs ih => simp [jsonableElems, jsonable, ih]

theorem valOk_map_int (xs : List Int) :
    ValOk (PyVal.list (xs.map PyVal.int)) (xs.length + 3) := by
  have h := valOk_list (xs.map PyVal.int) 1
    (by
      intro v hv
      obtain ⟨n, _, rfl⟩ := List.mem_map.mp hv
      exact valOk_int n)
    (by
      intro v hv
      obtain ⟨n, _, rfl⟩ := List.mem_map.mp hv
      exact headOkDump_int n)
  rw [List.length_map] at h
  have harith : 1 + xs.length + 2 = xs.length + 3 := by omega
  rw [harith] at h
  exact h

theorem jdumpElems_map_int_len (xs : List Int) :
    xs.length ≤ (jdumpElems (xs.map PyVal.int)).length := by
  induction xs with
  | nil => simp [jdumpElems]
  | cons x xs ih =>
    have hx : 1 ≤ (intChars x).length := List.length_pos.mpr (intChars_ne_nil x)
    cases xs with
    | nil =>
      have h1 : jdumpElems [PyVal.int x] = jdump (PyVal.int x) := by simp [jdumpElems]
      have h2 : jdump (PyVal.int x) = intChars x := by simp [jdump]
      simp only [List.map_cons, List.map_nil, h1, h2, List.length_cons, List.length_nil]
      omega
    | cons y ys =>
      have h1 : jdumpElems (PyVal.int x :: PyVal.int y :: ys.map PyVal.int) =
          jdump (PyVal.int x) ++ ',' :: ' ' :: jdumpElems (PyVal.int y :: ys.map PyVal.int) := by
        simp [jdumpElems]
      have h2 : jdump (PyVal.int x) = intChars x := by simp [jdump]
      simp only [List.map_cons] at ih ⊢
      rw [h1, h2]
      simp only [List.length_append, List.length_cons] at ih ⊢
      omega

theorem dataDict_valOk (dc : DataContainer) (ctx : ExecutionContext)
    (di eo ci : List Int) (s : Int)
    (hdi : np_tolist dc.data_inputs = PyVal.list (di.map PyVal.int))
    (heo : np_tolist dc.expected_outputs = PyVal.list (eo.map PyVal.int))
    (hci : np_tolist dc.current_ids = PyVal.list (ci.map PyVal.int))
    (hs : dc.summary_id = PyVal.int s) :
    ValOk (dataDict dc ctx) (di.length + eo.length + ci.length + 10) := by
  unfold dataDict
  rw [hdi, heo, hci, hs]
  have hmem : ∀ m ∈ [("path", PyVal.str (ctx.get_path false)),
      ("data_inputs", PyVal.list (di.map PyVal.int)),
      ("expected_outputs", PyVal.list (eo.map PyVal.int)),
      ("current_ids", PyVal.list (ci.map PyVal.int)),
      ("summary_id", PyVal.int s)],
      ValOk m.2 (di.length + eo.length + ci.length + 3) := by
    intro m hm
    simp only [List.mem_cons, List.not_mem_nil, or_false] at hm
    rcases hm with rfl | rfl | rfl | rfl | rfl
    · exact valOk_mono _ 1 _ (by omega) (valOk_str _)
    · exact valOk_mono _ (di.length + 3) _ (by omega) (valOk_map_int di)
    · exact valOk_mono _ (eo.length + 3) _ (by omega) (valOk_map_int eo)
    · exact valOk_mono _ (ci.length + 3) _ (by omega) (valOk_map_int ci)
    · exact valOk_mono _ 1 _ (by omega) (valOk_int s)
  have h := valOk_dict _ _ hmem (by simp)
  have harith : di.length + eo.length + ci.length + 3 +
      ([("path", PyVal.str (ctx.get_path false)),
        ("data_inputs", PyVal.list (di.map PyVal.int)),
        ("expected_outputs", PyVal.list (eo.map PyVal.int)),
        ("current_ids", PyVal.list (ci.map PyVal.int)),
        ("summary_id", PyVal.int s)] : List (String × PyVal)).length + 2 =
      di.length + eo.length + ci.length + 10 := by
    simp only [List.length_cons, List.length_nil]
  rw [harith] at h
  exact h

theorem dataDict_jdump_len (dc : DataContainer) (ctx : ExecutionContext)
    (di eo ci : List Int) (s : Int)
    (hdi : np_tolist dc.data_inputs = PyVal.list (di.map PyVal.int))
    (heo : np_tolist dc.expected_outputs = PyVal.list (eo.map PyVal.int))
    (hci : np_tolist dc.current_ids = PyVal.list (ci.map PyVal.int))
    (hs : dc.summary_id = PyVal.int s) :
    di.length + eo.length + ci.length + 10 ≤ (jdump (dataDict dc ctx)).length + 1 := by
  unfold dataDict
  rw [hdi, heo, hci, hs]
  have h1 := jdumpElems_map_int_len di
  have h2 := jdumpElems_map_int_len eo
  have h3 := jdumpElems_map_int_len ci
  have h4 : 1 ≤ (intChars s).length := List.length_pos.mpr (intChars_ne_nil s)
  simp only [jdump, jdumpMembers, List.length_append, List.length_cons, List.length_nil]
  omega

theorem dataDict_jsonable (dc : DataContainer) (ctx : ExecutionContext)
    (di eo ci : List Int) (s : Int)
    (hdi : np_tolist dc.data_inputs = PyVal.list (di.map PyVal.int))
    (heo : np_tolist dc.expected_outputs = PyVal.list (eo.map PyVal.int))
    (hci : np_tolist dc.current_ids = PyVal.list (ci.map PyVal.int))
    (hs : dc.summary_id = PyVal.int s)
    (hpath : goodStr (ctx.get_path false) = true) :
    jsonable (dataDict dc ctx) = true := by
  unfold dataDict
  rw [hdi, heo, hci, hs]
  have k1 : goodStr "path" = true := by decide
  have k2 : goodStr "data_inputs" = true := by decide
  have k3 : goodStr "expected_outputs" = true := by decide
  have k4 : goodStr "current_ids" = true := by decide
  have k5 : goodStr "summary_id" = true := by decide
  simp [jsonable, jsonableMembers, jsonableElems_map_int, hpath, k1, k2, k3, k4, k5]

theorem dataDict_roundtrip (dc : DataContainer) (ctx : ExecutionContext)
    (di eo ci : List Int) (s : Int)
    (hdi : np_tolist dc.data_inputs = PyVal.list (di.map PyVal.int))
    (heo : np_tolist dc.expected_outputs = PyVal.list (eo.map PyVal.int))
    (hci : np_tolist dc.current_ids = PyVal.list (ci.map PyVal.int))
    (hs : dc.summary_id = PyVal.int s)
    (hpath : goodStr (ctx.get_path false) = true) :
    json_dumps (dataDict dc ctx) = some (String.mk (jdump (dataDict dc ctx))) ∧
    json_loads (String.mk (jdump (dataDict dc ctx))) = some (dataDict dc ctx) := by
  constructor
  · unfold json_dumps
    rw [if_pos (dataDict_jsonable dc ctx di eo ci s hdi heo hci hs hpath)]
  · exact json_loads_of_valOk _ _
      (dataDict_valOk dc ctx di eo ci s hdi heo hci hs)
      (dataDict_jdump_len dc ctx di eo ci s hdi heo hci hs)

theorem transform_dc_echo (url method : String) (dc : DataContainer) (ctx : ExecutionContext)
    (bodyS : String)
    (hdump : json_dumps (dataDict dc ctx) = some bodyS)
    (hload : json_loads bodyS = some (dataDict dc ctx)) :
    RestAPICaller._transform_data_container ⟨url, method, echoClient⟩ dc ctx =
      (Except.ok ⟨np_array (np_tolist dc.data_inputs), np_array (np_tolist dc.expected_outputs),
        np_array (np_tolist dc.current_ids), np_array dc.summary_id⟩,
       [⟨url, method, [("content-type", "application/json")], bodyS⟩]) := by
  unfold RestAPICaller._transform_data_container
  rw [hdump]
  show (match (match json_loads bodyS with
         | some v => Except.ok v
         | none => Except.error PyErr.jsonDecodeError) with
        | Except.error e =>
          (Except.error e,
           [(⟨url, method, [("content-type", "application/json")], bodyS⟩ : HttpRequest)])
        | Except.ok results =>
          match dictGet results "summary_id", dictGet results "current_ids",
                dictGet results "data_inputs", dictGet results "expected_outputs" with
          | some si, some ci2, some di2, some eo2 =>
            (Except.ok (⟨np_array di2, np_array eo2, np_array ci2, np_array si⟩ : DataContainer),
             [(⟨url, method, [("content-type", "application/json")], bodyS⟩ : HttpRequest)])
          | _, _, _, _ =>
            (Except.error PyErr.keyError,
             [(⟨url, method, [("content-type", "application/json")], bodyS⟩ : HttpRequest)])) = _
  rw [hload]
  rfl

/-- C1: for every batch envelope whose `data_inputs`, `expected_outputs` and
`current_ids` are numeric arrays and whose `summary_id` is an integer scalar,
the remote caller's batch-context transform, run against the stub HTTP client
that echoes the parsed request body back as the reply, returns a new envelope
whose four fields have values (their nested-list content) identical to those
of the input envelope. -/
theorem c1_echo_roundtrip (url method : String) (dc : DataContainer) (ctx : ExecutionContext)
    (hdi : isIntList dc.data_inputs = true)
    (heo : isIntList dc.expected_outputs = true)
    (hci : isIntList dc.current_ids = true)
    (hs : isInt dc.summary_id = true)
    (hpath : goodStr (ctx.get_path false) = true) :
    ∃ out : DataContainer,
      (RestAPICaller._transform_data_container ⟨url, method, echoClient⟩ dc ctx).1 =
        Except.ok out ∧
      np_tolist out.data_inputs = dc.data_inputs ∧
      np_tolist out.expected_outputs = dc.expected_outputs ∧
      np_tolist out.current_ids = dc.current_ids ∧
      np_tolist out.summary_id = dc.summary_id := by
  obtain ⟨di, hdi0⟩ := isIntList_shape _ hdi
  obtain ⟨eo, heo0⟩ := isIntList_shape _ heo
  obtain ⟨ci, hci0⟩ := isIntList_shape _ hci
  obtain ⟨s, hs0⟩ := isInt_shape _ hs
  have hdi1 : np_tolist dc.data_inputs = PyVal.list (di.map PyVal.int) := by
    rw [hdi0, np_tolist_map_int]
  have heo1 : np_tolist dc.expected_outputs = PyVal.list (eo.map PyVal.int) := by
    rw [heo0, np_tolist_map_int]
  have hci1 : np_tolist dc.current_ids = PyVal.list (ci.map PyVal.int) := by
    rw [hci0, np_tolist_map_int]
  obtain ⟨hdumps, hloads⟩ := dataDict_roundtrip dc ctx di eo ci s hdi1 heo1 hci1 hs0 hpath
  refine ⟨⟨np_array (np_tolist dc.data_inputs), np_array (np_tolist dc.expected_outputs),
    np_array (np_tolist dc.current_ids), np_array dc.summary_id⟩, ?_, ?_, ?_, ?_, ?_⟩
  · rw [transform_dc_echo url method dc ctx _ hdumps hloads]
  · show np_tolist (np_array (np_tolist dc.data_inputs)) = dc.data_inputs
    rw [hdi1, hdi0]
    unfold np_array
    rw [np_tolist_map_int, np_tolist_ndarray, np_tolist_map_int]
  · show np_tolist (np_array (np_tolist dc.expected_outputs)) = dc.expected_outputs
    rw [heo1, heo0]
    unfold np_array
    rw [np_tolist_map_int, np_tolist_ndarray, np_tolist_map_int]
  · show np_tolist (np_array (np_tolist dc.current_ids)) = dc.current_ids
    rw [hci1, hci0]
    unfold np_array
    rw [np_tolist_map_int, np_tolist_ndarray, np_tolist_map_int]
  · show np_tolist (np_array dc.summary_id) = dc.summary_id
    rw [hs0]
    unfold np_array
    rw [np_tolist_int, np_tolist_ndarray, np_tolist_int]

/-- Witness for C1 at the spec's concrete envelope (`data_inputs=[1,2,3]`,
`expected_outputs=[4,5,6]`, `current_ids=[0,1,2]`, `summary_id=7`). -/
theorem c1_echo_roundtrip_witness :
    (isIntList dc0.data_inputs = true ∧ isIntList dc0.expected_outputs = true ∧
     isIntList dc0.current_ids = true ∧ isInt dc0.summary_id = true ∧
     goodStr (ctx0.get_path false) = true) ∧
    (∃ out : DataContainer,
      (RestAPICaller._transform_data_container
        ⟨"http://localhost:5000/", "GET", echoClient⟩ dc0 ctx0).1 = Except.ok out ∧
      np_tolist out.data_inputs = dc0.data_inputs ∧
      np_tolist out.expected_outputs = dc0.expected_outputs ∧
      np_tolist out.current_ids = dc0.current_ids ∧
      np_tolist out.summary_id = dc0.summary_id) :=
  ⟨⟨rfl, rfl, rfl, rfl, rfl⟩,
   c1_echo_roundtrip "http://localhost:5000/" "GET" dc0 ctx0 rfl rfl rfl rfl rfl⟩

/-- C4: for every batch envelope and execution context (with a serializable
`summary_id`, per the envelope invariant) and a client exposing `get`, the
batch-context transform sends exactly one request, to the configured url with
the configured method, with the `content-type: application/json` header,
whose body is the JSON encoding of the object with exactly the five keys
`path`, `data_inputs`, `expected_outputs`, `current_ids` and `summary_id`,
the three array fields converted to nested lists via `np.array(...).tolist()`
and `summary_id` passed unconverted; and the method defaults to `GET`. -/
theorem c4_request_shape (url method : String) (cl : HttpRequest → Except PyErr PyVal)
    (dc : DataContainer) (ctx : ExecutionContext) (bodyS : String)
    (hdump : json_dumps (PyVal.dict
      [("path", PyVal.str (ctx.get_path false)),
       ("data_inputs", np_tolist dc.data_inputs),
       ("expected_outputs", np_tolist dc.expected_outputs),
       ("current_ids", np_tolist dc.current_ids),
       ("summary_id", dc.summary_id)]) = some bodyS) :
    (RestAPICaller._transform_data_container ⟨url, method, ⟨some cl⟩⟩ dc ctx).2 =
      [⟨url, method, [("content-type", "application/json")], bodyS⟩] ∧
    ∀ u : String, (RestAPICaller.init u none none).method = "GET" := by
  constructor
  · unfold RestAPICaller._transform_data_container
    have hdd : json_dumps (dataDict dc ctx) = some bodyS := hdump
    rw [hdd]
    show (match cl (⟨url, method, [("content-type", "application/json")], bodyS⟩ : HttpRequest) with
          | Except.error e =>
            ((Except.error e : Except PyErr DataContainer),
             [(⟨url, method, [("content-type", "application/json")], bodyS⟩ : HttpRequest)])
          | Except.ok results =>
            match dictGet results "summary_id", dictGet results "current_ids",
                  dictGet results "data_inputs", dictGet results "expected_outputs" with
            | some si, some ci2, some di2, some eo2 =>
              (Except.ok (⟨np_array di2, np_array eo2, np_array ci2, np_array si⟩ : DataContainer),
               [(⟨url, method, [("content-type", "application/json")], bodyS⟩ : HttpRequest)])
            | _, _, _, _ =>
              (Except.error PyErr.keyError,
               [(⟨url, method, [("content-type", "application/json")], bodyS⟩ : HttpRequest)])).2 =
      [(⟨url, method, [("content-type", "application/json")], bodyS⟩ : HttpRequest)]
    rcases cl (⟨url, method, [("content-type", "application/json")], bodyS⟩ : HttpRequest) with e | results
    · rfl
    · show (match dictGet results "summary_id", dictGet results "current_ids",
              dictGet results "data_inputs", dictGet results "expected_outputs" with
            | some si, some ci2, some di2, some eo2 =>
              (Except.ok (⟨np_array di2, np_array eo2, np_array ci2, np_array si⟩ : DataContainer),
               [(⟨url, method, [("content-type", "application/json")], bodyS⟩ : HttpRequest)])
            | _, _, _, _ =>
              (Except.error PyErr.keyError,
               [(⟨url, method, [("content-type", "application/json")], bodyS⟩ : HttpRequest)])).2 =
        [(⟨url, method, [("content-type", "application/json")], bodyS⟩ : HttpRequest)]
      rcases dictGet results "summary_id" with _ | si <;>
        rcases dictGet results "current_ids" with _ | ci2 <;>
        rcases dictGet results "data_inputs" with _ | di2 <;>
        rcases dictGet results "expected_outputs" with _ | eo2 <;> rfl
  · intro u
    rfl

/-- Witness for C4 at the spec's concrete envelope and a trivial client. -/
theorem c4_request_shape_witness :
    json_dumps (PyVal.dict
      [("path", PyVal.str (ctx0.get_path false)),
       ("data_inputs", np_tolist dc0.data_inputs),
       ("expected_outputs", np_tolist dc0.expected_outputs),
       ("current_ids", np_tolist dc0.current_ids),
       ("summary_id", dc0.summary_id)]) =
      some (String.mk (jdump (dataDict dc0 ctx0))) ∧
    ((RestAPICaller._transform_data_container
        ⟨"http://localhost:5000/", "GET", ⟨some (fun _ => Except.ok PyVal.pynone)⟩⟩ dc0 ctx0).2 =
      [⟨"http://localhost:5000/", "GET", [("content-type", "application/json")],
        String.mk (jdump (dataDict dc0 ctx0))⟩] ∧
     ∀ u : String, (RestAPICaller.init u none none).method = "GET") :=
  ⟨rfl, c4_request_shape "http://localhost:5000/" "GET" (fun _ => Except.ok PyVal.pynone)
    dc0 ctx0 (String.mk (jdump (dataDict dc0 ctx0))) rfl⟩

/-- C7: a remote caller constructed without an explicit HTTP client argument
defaults its client to the `urllib.request` module object, which exposes no
`get` callable; hence, under the default construction, every batch-context
transform (of a serializable envelope) fails with an `AttributeError` and no
request is ever issued. -/
theorem c7_default_client (url : String) (method : Option String) :
    (RestAPICaller.init url method none).request = urllib_request_module ∧
    urllib_request_module.get? = none ∧
    (∀ (dc : DataContainer) (ctx : ExecutionContext) (bodyS : String),
      json_dumps (dataDict dc ctx) = some bodyS →
      RestAPICaller._transform_data_container (RestAPICaller.init url method none) dc ctx =
        (Except.error PyErr.attributeError, [])) := by
  refine ⟨rfl, rfl, ?_⟩
  intro dc ctx bodyS hdump
  unfold RestAPICaller._transform_data_container
  rw [hdump]
  rfl

/-- Witness for C7 at the spec's concrete envelope. -/
theorem c7_default_client_witness :
    json_dumps (dataDict dc0 ctx0) = some (String.mk (jdump (dataDict dc0 ctx0))) ∧
    RestAPICaller._transform_data_container (RestAPICaller.init "http://x" none none) dc0 ctx0 =
      (Except.error PyErr.attributeError, []) :=
  ⟨rfl, (c7_default_client "http://x" none).2.2 dc0 ctx0
    (String.mk (jdump (dataDict dc0 ctx0))) rfl⟩

/-- C5: the remote caller's direct single-value transform always raises
`NotImplementedError` with message "must be used inside a pipeline", and
never returns a value. -/
theorem c5_transform_raises (c : RestAPICaller) (x : PyVal) :
    RestAPICaller.transform c x =
      Except.error (PyErr.notImplementedError "must be used inside a pipeline") ∧
    ∀ v : PyVal, RestAPICaller.transform c x ≠ Except.ok v := by
  refine ⟨rfl, ?_⟩
  intro v h
  exact Except.noConfusion h

/-- Witness for C5 at a concrete caller and input. -/
theorem c5_transform_raises_witness :
    RestAPICaller.transform caller0 (PyVal.int 1) =
      Except.error (PyErr.notImplementedError "must be used inside a pipeline") ∧
    RestAPICaller.transform caller0 (PyVal.int 1) ≠ Except.ok PyVal.pynone :=
  ⟨(c5_transform_raises caller0 (PyVal.int 1)).1,
   (c5_transform_raises caller0 (PyVal.int 1)).2 PyVal.pynone⟩

/-- C9: constructing the REST binder composes decoder, wrapped unit and
encoder, in that order, into a linear three-step pipeline, stores the route,
and the route defaults to "/" when not supplied; the composed transform
applies decode, then the wrapped unit, then encode (with jsonify). -/
theorem c9_binder_init (d : JSONDataBodyDecoder) (w : BaseStep) (e : JSONDataResponseEncoder)
    (r : String) :
    (FlaskRestApiWrapper.init d w e (some r)).pipeline.steps = [d.toStep, w, e.toStep] ∧
    (FlaskRestApiWrapper.init d w e (some r)).route = r ∧
    (FlaskRestApiWrapper.init d w e none).route = "/" ∧
    ∀ x : PyVal, (FlaskRestApiWrapper.init d w e (some r)).transform x =
      ((d.decode x).bind w.transform).bind (fun y => (e.encode y).map jsonify) := by
  refine ⟨rfl, rfl, rfl, ?_⟩
  intro x
  rfl

/-- C2: for a decoder/encoder pair whose decode and encode are mutually
inverse on a domain object, with the identity step as the wrapped unit, the
REST binder's composed three-stage transform maps the encoded form of that
object to a response whose JSON payload is exactly that encoded object,
unchanged: decode, process, encode is the identity on the encoded domain. -/
theorem c2_codec_identity (dec enc : PyVal → Except PyErr PyVal) (d e : PyVal)
    (hde : dec e = Except.ok d) (hed : enc d = Except.ok e) (r : Option String) :
    (FlaskRestApiWrapper.init ⟨dec⟩ idStep ⟨enc⟩ r).transform e = Except.ok (jsonify e) ∧
    response_json (jsonify e) = some e := by
  constructor
  · show (((Except.ok e).bind (JSONDataBodyDecoder.transform ⟨dec⟩)).bind
      idStep.transform).bind (JSONDataResponseEncoder.transform ⟨enc⟩) = Except.ok (jsonify e)
    rw [show ((Except.ok e).bind (JSONDataBodyDecoder.transform ⟨dec⟩)) = dec e from rfl, hde]
    show (enc d).map jsonify = Except.ok (jsonify e)
    rw [hed]
    rfl
  · rfl

/-- Witness for C2 with the sample codec pair at a concrete domain object. -/
theorem c2_codec_identity_witness :
    sampleDecode (PyVal.dict [("payload", dom0)]) = Except.ok dom0 ∧
    sampleEncode dom0 = Except.ok (PyVal.dict [("payload", dom0)]) ∧
    (FlaskRestApiWrapper.init ⟨sampleDecode⟩ idStep ⟨sampleEncode⟩ none).transform
        (PyVal.dict [("payload", dom0)]) =
      Except.ok (jsonify (PyVal.dict [("payload", dom0)])) :=
  ⟨rfl, rfl,
   (c2_codec_identity sampleDecode sampleEncode dom0 (PyVal.dict [("payload", dom0)])
     rfl rfl none).1⟩

/-- C3: the accessor builds an application with exactly one resource,
registered at the configured route, defining a GET handler and no
POST/PUT/DELETE handler; the GET handler applies the binder's composed
transform to the JSON-parsed request body. -/
theorem c3_single_get_route (w : FlaskRestApiWrapper) :
    (FlaskRestApiWrapper.get_app w).resources =
      [(w.route, ⟨some (fun raw => (flask_get_json raw).bind w.transform),
        none, none, none⟩)] ∧
    ∀ raw v, json_loads raw = some v →
      (flask_get_json raw).bind w.transform = w.transform v := by
  refine ⟨rfl, ?_⟩
  intro raw v hv
  unfold flask_get_json
  rw [hv]
  rfl

/-- Witness for C3 at a concrete wrapper and request body. -/
theorem c3_single_get_route_witness :
    (FlaskRestApiWrapper.get_app wrapper0).resources =
      [(wrapper0.route, ⟨some (fun raw => (flask_get_json raw).bind wrapper0.transform),
        none, none, none⟩)] ∧
    json_loads "1" = some (PyVal.int 1) ∧
    (flask_get_json "1").bind wrapper0.transform = wrapper0.transform (PyVal.int 1) :=
  ⟨(c3_single_get_route wrapper0).1, rfl,
   (c3_single_get_route wrapper0).2 "1" (PyVal.int 1) rfl⟩

/-- C6 counterexample: invoking the HTTP client abstraction's `get` stub does
not fail with a not-implemented signal; its body (`pass`) returns `None`. -/
theorem c6_counterexample :
    RequestWrapper.get_stub "http://localhost:5000/" "GET" [] "" = Except.ok PyVal.pynone :=
  rfl

/-- C6 amended: the decoder's `decode` and the encoder's `encode` stubs fail
with a `NotImplementedError` when invoked unoverridden, while the HTTP client
abstraction's `post` and `get` stubs are abstract declarations whose bodies
(`pass`) return `None` when invoked; their abstractness is enforced at
subclass instantiation time, not by a not-implemented error at invocation. -/
theorem c6_amended (x : PyVal) (host url method : String)
    (headers : List (String × String)) (data : String) :
    (∃ m1, JSONDataBodyDecoder.decode_stub x = Except.error (PyErr.notImplementedError m1)) ∧
    (∃ m2, JSONDataResponseEncoder.encode_stub x = Except.error (PyErr.notImplementedError m2)) ∧
    RequestWrapper.post_stub host x = Except.ok PyVal.pynone ∧
    RequestWrapper.get_stub url method headers data = Except.ok PyVal.pynone :=
  ⟨⟨_, rfl⟩, ⟨_, rfl⟩, rfl, rfl⟩

/-- C8: the stock client's `get` builds one request from exactly the four
given arguments and opens it; a transport error propagates unchanged, an
unparsable reply body raises a JSON decode error, and a parsable body is
returned parsed, with no wrapping and no default value. -/
theorem c8_get_propagates (net : Network) (url method : String)
    (headers : List (String × String)) (data : String) :
    (UrllibRequestWrapper.get net url method headers data).2 =
      [⟨url, method, headers, data⟩] ∧
    (∀ err, net ⟨url, method, headers, data⟩ = Except.error err →
      (UrllibRequestWrapper.get net url method headers data).1 = Except.error err) ∧
    (∀ body, net ⟨url, method, headers, data⟩ = Except.ok body →
      json_loads body = none →
      (UrllibRequestWrapper.get net url method headers data).1 =
        Except.error PyErr.jsonDecodeError) ∧
    (∀ body v, net ⟨url, method, headers, data⟩ = Except.ok body →
      json_loads body = some v →
      (UrllibRequestWrapper.get net url method headers data).1 = Except.ok v) := by
  have hsplit : UrllibRequestWrapper.get net url method headers data =
      (match net ⟨url, method, headers, data⟩ with
       | Except.error e => ((Except.error e : Except PyErr PyVal),
           [(⟨url, method, headers, data⟩ : HttpRequest)])
       | Except.ok body =>
         match json_loads body with
         | some v => (Except.ok v, [(⟨url, method, headers, data⟩ : HttpRequest)])
         | none => (Except.error PyErr.jsonDecodeError,
             [(⟨url, method, headers, data⟩ : HttpRequest)])) := rfl
  refine ⟨?_, ?_, ?_, ?_⟩
  · rw [hsplit]
    rcases net ⟨url, method, headers, data⟩ with e | body
    · rfl
    · show (match json_loads body with
            | some v => ((Except.ok v : Except PyErr PyVal),
                [(⟨url, method, headers, data⟩ : HttpRequest)])
            | none => (Except.error PyErr.jsonDecodeError,
                [(⟨url, method, headers, data⟩ : HttpRequest)])).2 =
        [(⟨url, method, headers, data⟩ : HttpRequest)]
      rcases json_loads body with _ | v <;> rfl
  · intro err h
    rw [hsplit, h]
  · intro body h hj
    rw [hsplit, h]
    show (match json_loads body with
          | some v => ((Except.ok v : Except PyErr PyVal),
              [(⟨url, method, headers, data⟩ : HttpRequest)])
          | none => (Except.error PyErr.jsonDecodeError,
              [(⟨url, method, headers, data⟩ : HttpRequest)])).1 =
      Except.error PyErr.jsonDecodeError
    rw [hj]
  · intro body v h hj
    rw [hsplit, h]
    show (match json_loads body with
          | some v2 => ((Except.ok v2 : Except PyErr PyVal),
              [(⟨url, method, headers, data⟩ : HttpRequest)])
          | none => (Except.error PyErr.jsonDecodeError,
              [(⟨url, method, headers, data⟩ : HttpRequest)])).1 =
      Except.ok v
    rw [hj]

/-- Witness for C8: an unreachable transport propagates its error, a garbled
reply raises a decode error, and a JSON reply is returned parsed. -/
theorem c8_get_propagates_witness :
    (UrllibRequestWrapper.get netDown "http://unreachable.example/" "GET" [] "").1 =
      Except.error PyErr.urlError ∧
    (UrllibRequestWrapper.get netGarbled "http://localhost:5000/" "GET" [] "").1 =
      Except.error PyErr.jsonDecodeError ∧
    (UrllibRequestWrapper.get netSeven "http://localhost:5000/" "GET" [] "").1 =
      Except.ok (PyVal.int 7) :=
  ⟨(c8_get_propagates netDown "http://unreachable.example/" "GET" [] "").2.1
      PyErr.urlError rfl,
   (c8_get_propagates netGarbled "http://localhost:5000/" "GET" [] "").2.2.1
      "a" rfl rfl,
   (c8_get_propagates netSeven "http://localhost:5000/" "GET" [] "").2.2.2
      "7" (PyVal.int 7) rfl rfl⟩

/-- C10: the stock client's `post` returns no result (Python `None`) and
performs no transport call. -/
theorem c10_post_unimplemented (net : Network) (url : String) (files : PyVal) :
    UrllibRequestWrapper.post net url files = (Except.ok PyVal.pynone, []) := rfl
